import Mathlib

/-!
Verification of the cache/snapshot/selection subsystem and query pipeline of the
ctg-pinball-leaderboard server (src/app.py), as a shallow embedding in Lean 4.

Conventions of the embedding:
* pandas DataFrames built from a list of JSON objects are modelled as a `Frame`:
  per-column presence flags (a column exists when at least one input object has
  the key) together with a list of rows whose optional values are `Cell`s
  (`cstr` for a string value, `cnan` for NaN, i.e. a missing or non-string value).
* Python exceptions raised inside a pipeline step are modelled with
  `Except Unit` (`.error ()` is a raised `ValueError`).
* `datetime.strptime(x, "%Y-%m-%dT%H:%M:%S.%fZ")` is modelled after CPython's
  `_strptime`: each directive is the regular expression CPython compiles for it
  (`%Y` exactly four digits, `%m` `1[0-2]|0[1-9]|[1-9]`, `%d`
  `3[01]|[12]\d|0[1-9]|[1-9]`, `%H` `2[0-3]|[01]\d|\d`, `%M` `[0-5]\d|\d`,
  `%S` `6[01]|[0-5]\d|\d`, `%f` one to six digits), the whole string must be
  consumed, and the final `datetime(...)` construction additionally validates
  the day against the month length and requires `second <= 59`.
* module-level mutable globals (`cached_leaderboard`, `last_updated`,
  `selected_cache`, `cache_snapshots`) are threaded explicitly as state; the
  opaque upstream leaderboard payload is a `List β` for a type parameter `β`
  (the code only ever stores it, compares it against `None`, or replaces it
  with the empty list).
* floats produced by `DataFrame.mean` are modelled exactly: the mean of an
  integer column is the integer division with round-half-to-even that
  `f"{x:,.0f}"` prints, computed on exact integers.
-/

namespace CTG

deriving instance DecidableEq for Except

/-- `RESULTS_PER_PAGE = 25` in app.py. -/
def RESULTS_PER_PAGE : Nat := 25

/-- `CACHE_EXPIRATION = 500` in app.py (seconds). -/
def CACHE_EXPIRATION : Int := 500

/-- `LOW_SCORE_THRESHOLD = 100000` in app.py. -/
def LOW_SCORE_THRESHOLD : Int := 100000

/-! ## CPython `strptime` / `strftime` model -/

def digitVal (c : Char) : Nat := c.toNat - 48

/-- Take at most `n` leading decimal digits, returning them and the rest. -/
def takeDigits : Nat → List Char → List Char × List Char
  | 0, cs => ([], cs)
  | _ + 1, [] => ([], [])
  | n + 1, c :: cs =>
    if c.isDigit then
      let p := takeDigits n cs
      (c :: p.1, p.2)
    else ([], c :: cs)

def digitsToNat (ds : List Char) : Nat := ds.foldl (fun a c => a * 10 + digitVal c) 0

/-- `%Y`: exactly four digits. -/
def parseFixed4 (cs : List Char) : Option (Nat × List Char) :=
  match cs with
  | a :: b :: c :: d :: rest =>
    if a.isDigit && b.isDigit && c.isDigit && d.isDigit then
      some (digitsToNat [a, b, c, d], rest)
    else none
  | _ => none

/-- A two-digits-else-one-digit numeric directive. Because every directive in the
format `"%Y-%m-%dT%H:%M:%S.%fZ"` is followed by a non-digit literal, taking two
digits greedily when their value is admissible, else one, agrees with CPython's
backtracking regex match. -/
def parse2or1 (okTwo okOne : Nat → Bool) (cs : List Char) : Option (Nat × List Char) :=
  match cs with
  | c1 :: c2 :: rest =>
    if c1.isDigit && c2.isDigit && okTwo (digitVal c1 * 10 + digitVal c2) then
      some (digitVal c1 * 10 + digitVal c2, rest)
    else if c1.isDigit && okOne (digitVal c1) then
      some (digitVal c1, c2 :: rest)
    else none
  | [c1] => if c1.isDigit && okOne (digitVal c1) then some (digitVal c1, []) else none
  | [] => none

/-- CPython compiles the strptime regex with `re.IGNORECASE`, so the literals
`T` and `Z` of the format also match their lowercase forms. -/
def foldAscii (c : Char) : Char :=
  if 'A' ≤ c ∧ c ≤ 'Z' then Char.ofNat (c.toNat + 32) else c

def expectLit (c : Char) (cs : List Char) : Option (List Char) :=
  match cs with
  | d :: rest => if foldAscii d = foldAscii c then some rest else none
  | [] => none

structure DT where
  year : Nat
  month : Nat
  day : Nat
  hour : Nat
  minute : Nat
  second : Nat
  micro : Nat
deriving DecidableEq, Repr

def isLeap (y : Nat) : Bool := y % 4 = 0 && (y % 100 != 0 || y % 400 = 0)

def daysInMonth (y m : Nat) : Nat :=
  if m = 2 then (if isLeap y then 29 else 28)
  else if m = 4 || m = 6 || m = 9 || m = 11 then 30
  else 31

/-- `datetime.strptime(s, "%Y-%m-%dT%H:%M:%S.%fZ")`: `none` models a raised
`ValueError` (match failure, unconverted trailing data, or an out-of-range
component rejected by the `datetime` constructor). -/
def strptimeISO (s : String) : Option DT := do
  let (y, cs1) ← parseFixed4 s.toList
  let cs2 ← expectLit '-' cs1
  let (mo, cs3) ← parse2or1 (fun v => 1 ≤ v && v ≤ 12) (fun v => 1 ≤ v) cs2
  let cs4 ← expectLit '-' cs3
  let (d, cs5) ← parse2or1 (fun v => 1 ≤ v && v ≤ 31) (fun v => 1 ≤ v) cs4
  let cs6 ← expectLit 'T' cs5
  let (h, cs7) ← parse2or1 (fun v => v ≤ 23) (fun _ => true) cs6
  let cs8 ← expectLit ':' cs7
  let (mi, cs9) ← parse2or1 (fun v => v ≤ 59) (fun _ => true) cs8
  let cs10 ← expectLit ':' cs9
  let (sec, cs11) ← parse2or1 (fun v => v ≤ 61) (fun _ => true) cs10
  let cs12 ← expectLit '.' cs11
  let fr := takeDigits 6 cs12
  if fr.1.isEmpty then none else do
  let cs13 ← expectLit 'Z' fr.2
  if cs13.isEmpty ∧ 1 ≤ y ∧ 1 ≤ d ∧ d ≤ daysInMonth y mo ∧ sec ≤ 59 then
    some ⟨y, mo, d, h, mi, sec, digitsToNat fr.1 * 10 ^ (6 - fr.1.length)⟩
  else none

def digitChar (n : Nat) : Char := Char.ofNat (48 + n)

/-- Zero-padded two-digit rendering of a value below 100. -/
def pad2 (n : Nat) : String := String.mk [digitChar (n / 10 % 10), digitChar (n % 10)]

/-- `dt.strftime("%I:%M %p")`: 12-hour clock, zero padded, with AM/PM. -/
def strf12 (t : DT) : String :=
  pad2 (if t.hour % 12 = 0 then 12 else t.hour % 12) ++ ":" ++ pad2 t.minute ++ " "
    ++ (if t.hour < 12 then "AM" else "PM")

/-! ## DataFrame model and the normalize step of `process_leaderboard` -/

/-- A value in an optional string column: a string, or NaN (missing key or
non-string value). -/
inductive Cell where
  | cstr (s : String)
  | cnan
deriving DecidableEq, Repr

structure Row where
  address : Cell
  playerAddress : Cell
  tribe : String
  highScore : Int
  hsaa : Cell
deriving DecidableEq, Repr

/-- A leaderboard DataFrame: column-presence flags plus the rows.
`hsaa` abbreviates the `highScoreAchievedAt` column. -/
structure Frame where
  hasAddress : Bool
  hasPlayerAddress : Bool
  hasTribe : Bool
  hasHsaa : Bool
  rows : List Row
deriving DecidableEq, Repr

/-- `df.rename(columns={'playerAddress': 'address'})`, applied only when
`'playerAddress' in df.columns and 'address' not in df.columns`. -/
def renameStep (f : Frame) : Frame :=
  if f.hasPlayerAddress && !f.hasAddress then
    { f with hasAddress := true, hasPlayerAddress := false,
             rows := f.rows.map fun r => { r with address := r.playerAddress, playerAddress := Cell.cnan } }
  else f

/-- The lambda applied to each `highScoreAchievedAt` value:
`datetime.strptime(x, ...).strftime("%I:%M %p") if isinstance(x, str) else "N/A"`.
`.error ()` is the `ValueError` raised by `strptime` on an unparsable string. -/
def fmtCell (c : Cell) : Except Unit Cell :=
  match c with
  | Cell.cstr s =>
    match strptimeISO s with
    | some t => Except.ok (Cell.cstr (strf12 t))
    | none => Except.error ()
  | Cell.cnan => Except.ok (Cell.cstr "N/A")

def fmtRow (r : Row) : Except Unit Row :=
  match fmtCell r.hsaa with
  | Except.ok c => Except.ok { r with hsaa := c }
  | Except.error e => Except.error e

/-- `Series.apply`: applied row by row, propagating the first raised exception. -/
def mapCells (g : Row → Except Unit Row) : List Row → Except Unit (List Row)
  | [] => Except.ok []
  | r :: rs =>
    match g r with
    | Except.error e => Except.error e
    | Except.ok r2 =>
      match mapCells g rs with
      | Except.error e => Except.error e
      | Except.ok rs2 => Except.ok (r2 :: rs2)

/-- The `highScoreAchievedAt` conversion, applied only when the column exists. -/
def hsaaStep (f : Frame) : Except Unit Frame :=
  if f.hasHsaa then
    match mapCells fmtRow f.rows with
    | Except.ok rs => Except.ok { f with rows := rs }
    | Except.error e => Except.error e
  else Except.ok f

/-- The normalize step of `process_leaderboard` (lines 208-217 of app.py):
alternate address-field renaming followed by timestamp reformatting. -/
def normalizeStep (f : Frame) : Except Unit Frame := hsaaStep (renameStep f)

/-- Modelled from the spec: the display value the spec promises for each
`highScoreAchievedAt` cell — the 12-hour rendering of a parsable ISO string,
and the string "N/A" when the value is absent or unparsable. Used to compare
the code's behaviour against the spec's words. -/
def fmtCellSpec (c : Cell) : Cell :=
  match c with
  | Cell.cstr s =>
    match strptimeISO s with
    | some t => Cell.cstr (strf12 t)
    | none => Cell.cstr "N/A"
  | Cell.cnan => Cell.cstr "N/A"

/-! ## Pagination (`process_leaderboard` lines 226-232, `leaderboard` line 418) -/

/-- The pagination slice with an explicit page size (the spec's
`paginate(entries, page, pageSize=25)`); the code always passes
`RESULTS_PER_PAGE`. Returns `df_sorted.iloc[start:end]` and `len(df_sorted)`. -/
def paginateWith (ps : Nat) (xs : List α) (page : Nat) : List α × Nat :=
  ((xs.drop ((page - 1) * ps)).take ps, xs.length)

def paginate (xs : List α) (page : Nat) : List α × Nat :=
  paginateWith RESULTS_PER_PAGE xs page

/-- `(total_results // RESULTS_PER_PAGE) + (1 if total_results % RESULTS_PER_PAGE > 0 else 0)`
with an explicit page size. -/
def total_pages_with (ps total : Nat) : Nat :=
  total / ps + (if total % ps > 0 then 1 else 0)

def total_pages (total : Nat) : Nat := total_pages_with RESULTS_PER_PAGE total

/-! ## Team leaderboard (`calculate_team_leaderboard`, lines 314-334) -/

/-- One element of `cached_leaderboard` as used by the team aggregation. -/
structure TRow where
  tribe : String
  highScore : Int
deriving DecidableEq, Repr

/-- Round-half-to-even integer nearest to `num / den` (`den > 0`): the value
`f"{num/den:,.0f}"` prints for an exactly represented quotient. -/
def roundHalfEvenDiv (num den : Int) : Int :=
  let fl := Int.fdiv num den
  let r := num - fl * den
  if 2 * r < den then fl
  else if den < 2 * r then fl + 1
  else if fl % 2 = 0 then fl else fl + 1

/-- Decimal digits of `n`, least significant first (`fuel`-bounded recursion). -/
def natDigitsRevAux : Nat → Nat → List Char
  | 0, _ => []
  | fuel + 1, n => if n = 0 then [] else digitChar (n % 10) :: natDigitsRevAux fuel (n / 10)

/-- Insert a comma after every three least-significant digits. -/
def groupRev : List Char → List Char
  | a :: b :: c :: d :: rest => a :: b :: c :: ',' :: groupRev (d :: rest)
  | l => l

/-- `f"{i:,.0f}"` for an integer value: thousands separators, no decimals. -/
def fmtThousands (i : Int) : String :=
  if i = 0 then "0"
  else
    (if i < 0 then "-" else "")
      ++ String.mk ((groupRev (natDigitsRevAux (i.natAbs + 1) i.natAbs)).reverse)

/-- The `average_score` display string of one tribe group: mean of `highScore`
formatted `{:,.0f}` ("0" for the NaN mean of an empty group). -/
def fmtAvg (sum : Int) (cnt : Nat) : String :=
  if cnt = 0 then "0" else fmtThousands (roundHalfEvenDiv sum (Int.ofNat cnt))

def tribeSum (l : List TRow) (t : String) : Int :=
  ((l.filter fun e => e.tribe = t).map TRow.highScore).sum

def tribeCount (l : List TRow) (t : String) : Nat :=
  (l.filter fun e => e.tribe = t).length

/-- Ascending order on the group keys: `DataFrame.groupby` sorts them. -/
def strLe (a b : String) : Prop := a ≤ b

instance : DecidableRel strLe := fun a b =>
  decidable_of_iff (a.toList ≤ b.toList) String.le_iff_toList_le.symm

instance : IsTotal String strLe := ⟨fun a b => le_total a b⟩

instance : IsTrans String strLe := ⟨fun _ _ _ h1 h2 => le_trans h1 h2⟩

/-- `team_stats.sort_values(by="average_score", ascending=False)` applied AFTER
the `{:,.0f}` formatting: descending lexicographic order on the display string. -/
def teamGe (a b : String × String) : Prop := b.2 ≤ a.2

instance : DecidableRel teamGe := fun a b =>
  decidable_of_iff (b.2.toList ≤ a.2.toList) String.le_iff_toList_le.symm

instance : IsTotal (String × String) teamGe := ⟨fun a b => le_total b.2 a.2⟩

instance : IsTrans (String × String) teamGe := ⟨fun _ _ _ h1 h2 => le_trans h2 h1⟩

/-- `calculate_team_leaderboard`: group `cached_leaderboard` by tribe, format the
mean `highScore` of each group, then sort by the formatted string, descending.
Result rows are `(tribe, average_score)`. -/
def calculate_team_leaderboard (cached : List TRow) : List (String × String) :=
  if cached = [] then []
  else
    let keys := List.insertionSort strLe (cached.map TRow.tribe).dedup
    let stats := keys.map fun t => (t, fmtAvg (tribeSum cached t) (tribeCount cached t))
    List.insertionSort teamGe stats

/-! ## Vote-off list (`calculate_vote_off_list`, lines 336-361) -/

/-- `x.split(":")[-1]`: the substring after the last colon. -/
def afterLastColon (cs : List Char) : List Char :=
  (cs.reverse.takeWhile fun c => c ≠ ':').reverse

/-- `lambda x: x.split(":")[-1] if ":" in str(x) else "Unknown"`; a NaN cell
stringifies to "nan", which contains no colon. -/
def player_id (c : Cell) : String :=
  match c with
  | Cell.cstr s => if s.toList.contains ':' then String.mk (afterLastColon s.toList) else "Unknown"
  | Cell.cnan => "Unknown"

/-- Ascending order on `highScore` used by `sort_values(by="highScore")`. -/
def scoreLe (a b : Row) : Prop := a.highScore ≤ b.highScore

instance : DecidableRel scoreLe := fun a b => inferInstanceAs (Decidable (a.highScore ≤ b.highScore))

instance : IsTotal Row scoreLe := ⟨fun a b => le_total a.highScore b.highScore⟩

instance : IsTrans Row scoreLe := ⟨fun _ _ _ h1 h2 => le_trans h1 h2⟩

/-- `address_col = "playerAddress" if "playerAddress" in df.columns else "address"`. -/
def addrOf (f : Frame) (r : Row) : Cell :=
  if f.hasPlayerAddress then r.playerAddress else r.address

/-- `calculate_vote_off_list(tribe)` over an already-fetched frame. -/
def calculate_vote_off_list (f : Frame) (tribe : String) : List (String × Int) :=
  if f.rows = [] then []
  else if ¬ f.hasTribe ∨ (¬ f.hasPlayerAddress ∧ ¬ f.hasAddress) then []
  else
    let picked := f.rows.filter fun r => r.tribe = tribe ∧ r.highScore < LOW_SCORE_THRESHOLD
    (List.insertionSort scoreLe picked).map fun r => (player_id (addrOf f r), r.highScore)

/-! ## Source selection (`select_cache`, lines 363-369) -/

/-- `select_cache(cache_id)`: `snapshots` is the key set of `cache_snapshots` at
the moment of the request, `cur` the current `selected_cache`. -/
def select_cache (snapshots : List String) (cur id : String) : String :=
  if id = "live" ∨ id ∈ snapshots then id else cur

/-- A run of selection requests against the initial `selected_cache = "live"`;
each event carries the registry key set at the time of that request. -/
def runSelections (evs : List (List String × String)) : String :=
  evs.foldl (fun cur ev => select_cache ev.1 cur ev.2) "live"

/-! ## Cache, snapshots and fetch (`fetch_leaderboard`, `save_backup`,
`delete_backup`; the opaque leaderboard payload is a `List β`) -/

/-- One value of the `cache_snapshots` dict:
`{"data": leaderboard_data, "timestamp": timestamp}`. -/
structure SnapData (β : Type) where
  data : List β
  timestamp : String
deriving DecidableEq, Repr

/-- A `requests` response as the code inspects it: the status code, and the
result of `data[0]["result"]["data"]["json"]["leaderboard"]` (`none` models the
`KeyError` when the nested keys are absent). -/
inductive HttpResp (β : Type) where
  | mk (status : Int) (extracted : Option (List β))
deriving DecidableEq, Repr

/-- The module-level mutable globals of app.py. -/
structure AppState (β : Type) where
  cached_leaderboard : Option (List β)
  last_updated : Int
  selected_cache : String
  cache_snapshots : List (String × SnapData β)
deriving DecidableEq, Repr

def dictKeys (m : List (String × γ)) : List String := m.map Prod.fst

def dictGet (m : List (String × γ)) (k : String) : Option γ :=
  (m.find? fun p => p.1 = k).map Prod.snd

/-- Python dict assignment: insertion-ordered, updating in place on a key hit. -/
def dictInsert (m : List (String × γ)) (k : String) (v : γ) : List (String × γ) :=
  if k ∈ dictKeys m then m.map (fun p => if p.1 = k then (k, v) else p) else m ++ [(k, v)]

/-- `fetch_leaderboard()` (lines 172-197): the pure transition given the wall
clock `now` and the response `resp` the network would return if consulted.
Returns the value `return`ed and the updated globals. -/
def fetch_leaderboard (st : AppState β) (now : Int) (resp : HttpResp β) :
    Option (List β) × AppState β :=
  if st.selected_cache ≠ "live" ∧ st.selected_cache ∈ dictKeys st.cache_snapshots then
    ((dictGet st.cache_snapshots st.selected_cache).map SnapData.data, st)
  else if now - st.last_updated > CACHE_EXPIRATION then
    match resp with
    | HttpResp.mk status ext =>
      if status = 200 then
        match ext with
        | some lb => (some lb, { st with cached_leaderboard := some lb, last_updated := now })
        | none => (some [], { st with cached_leaderboard := some [] })
      else (some [], { st with cached_leaderboard := some [] })
  else (st.cached_leaderboard, st)

/-- `save_backup()` (lines 29-54) acting on the registry and the set of backup
files on disk, for a fresh timestamp id `ts`. On HTTP 200 the file is written
before the nested-key extraction, so a `KeyError` (extracted = none) still
leaves the file behind; only a 200 response with extractable data registers a
snapshot and returns True. -/
def save_backup (reg : List (String × SnapData β)) (files : List String) (ts : String)
    (resp : HttpResp β) : List (String × SnapData β) × List String × Bool :=
  match resp with
  | HttpResp.mk status ext =>
    if status = 200 then
      let files2 := if ts ∈ files then files else files ++ [ts]
      match ext with
      | some d => (dictInsert reg ts ⟨d, ts⟩, files2, true)
      | none => (reg, files2, false)
    else (reg, files, false)

/-- A sequence of scheduler ticks / manual triggers: fold `save_backup` over the
timestamp & response of each tick, starting from `(reg, files)`. -/
def runBackups (reg : List (String × SnapData β)) (files : List String)
    (evs : List (String × HttpResp β)) : List (String × SnapData β) × List String :=
  evs.foldl
    (fun acc ev =>
      let r := save_backup acc.1 acc.2 ev.1 ev.2
      (r.1, r.2.1))
    (reg, files)

/-- The outcome `delete_backup` reports back to the user through the redirect
message: "Backup ... deleted" or "Backup file not found". -/
inductive DeleteResult where
  | deleted
  | fileMissing
deriving DecidableEq, Repr

/-- `delete_backup(timestamp)` (lines 105-120): drop the registry entry when
present, then delete the file when present; the reported outcome depends only
on the file's existence. Exceptions are caught, so nothing is raised. -/
def delete_backup (reg : List (String × SnapData β)) (files : List String) (ts : String) :
    List (String × SnapData β) × List String × DeleteResult :=
  let reg2 := if ts ∈ dictKeys reg then reg.filter (fun p => ¬ p.1 = ts) else reg
  if ts ∈ files then (reg2, files.erase ts, DeleteResult.deleted)
  else (reg2, files, DeleteResult.fileMissing)

/-! ## Concrete instances used in the theorems below -/

/-- A frame with no `highScoreAchievedAt` column and only the alternate address
spelling, so the renaming branch of normalize fires. -/
def fr3w : Frame := ⟨false, true, true, false, [⟨Cell.cnan, Cell.cstr "x:1", "red", 50, Cell.cnan⟩]⟩

/-- A frame with a well-formed `highScoreAchievedAt` value. -/
def fr3c : Frame :=
  ⟨true, false, true, true, [⟨Cell.cstr "x:1", Cell.cnan, "red", 50,
    Cell.cstr "2024-03-15T13:45:30.123456Z"⟩]⟩

/-- A frame whose `highScoreAchievedAt` value is a string that does not match
the ISO format. -/
def fr6c : Frame :=
  ⟨true, false, true, true, [⟨Cell.cstr "x:1", Cell.cnan, "red", 50,
    Cell.cstr "not-a-timestamp"⟩]⟩

/-- A frame with one NaN and one parsable `highScoreAchievedAt` value. -/
def fr6w : Frame :=
  ⟨true, false, true, true,
    [⟨Cell.cstr "y:9", Cell.cnan, "blue", 70, Cell.cnan⟩,
     ⟨Cell.cstr "y:8", Cell.cnan, "blue", 80, Cell.cstr "2024-03-15T00:30:00.000000Z"⟩]⟩

/-- `normalizeStep fr6w`, written out. -/
def fr6w2 : Frame :=
  ⟨true, false, true, true,
    [⟨Cell.cstr "y:9", Cell.cnan, "blue", 70, Cell.cstr "N/A"⟩,
     ⟨Cell.cstr "y:8", Cell.cnan, "blue", 80, Cell.cstr "12:30 AM"⟩]⟩

/-- Two tribes whose numeric means (900 and 100000) order one way and whose
formatted means ("900" and "100,000") order the other way. -/
def ex4 : List TRow := [⟨"a", 900⟩, ⟨"b", 100000⟩]

/-- A cache state holding live data. -/
def st1 : AppState Nat := ⟨some [7], 0, "live", []⟩

/-- A non-200 response. -/
def respFail : HttpResp Nat := HttpResp.mk 500 none

/-- 25 distinct fresh snapshot ids, oldest first. -/
def ids25 : List String :=
  ["s01", "s02", "s03", "s04", "s05", "s06", "s07", "s08", "s09", "s10",
   "s11", "s12", "s13", "s14", "s15", "s16", "s17", "s18", "s19", "s20",
   "s21", "s22", "s23", "s24", "s25"]

/-- 25 successful backup ticks with those ids. -/
def evs25 : List (String × HttpResp Nat) := ids25.map fun t => (t, HttpResp.mk 200 (some []))

/-- The same 25 ids paired with their (empty) payloads. -/
def pairs25 : List (String × List Nat) := ids25.map fun t => (t, [])

/-- A registry holding one snapshot whose backing file is gone. -/
def reg5 : List (String × SnapData Nat) := [("a", ⟨[], "a"⟩)]

/-- Thirty entries, to paginate at page size 25. -/
def l30 : List Nat := List.range 30

/-- The spec's vote-off example: two red entries, scores 50 and 200000. -/
def fr8 : Frame :=
  ⟨true, false, true, false,
    [⟨Cell.cstr "x:1", Cell.cnan, "red", 50, Cell.cnan⟩,
     ⟨Cell.cstr "x:2", Cell.cnan, "red", 200000, Cell.cnan⟩]⟩

/-- A state whose selection points at a snapshot id absent from the registry. -/
def st10 : AppState Nat := ⟨some [1], 0, "gone", [("k", ⟨[2], "k"⟩)]⟩

/-! ## Helper lemmas about the normalize step -/

theorem renameStep_renameStep (f : Frame) : renameStep (renameStep f) = renameStep f := by
  by_cases h : f.hasPlayerAddress && !f.hasAddress
  · simp [renameStep, h]
  · simp [renameStep, h]

theorem renameStep_hasHsaa (f : Frame) : (renameStep f).hasHsaa = f.hasHsaa := by
  by_cases h : f.hasPlayerAddress && !f.hasAddress
  · simp [renameStep, h]
  · simp [renameStep, h]

theorem renameStep_rows_nil (f : Frame) (h : f.rows = []) : (renameStep f).rows = [] := by
  by_cases hc : f.hasPlayerAddress && !f.hasAddress
  · simp [renameStep, hc, h]
  · simp [renameStep, hc, h]

theorem renameStep_hsaa_map (f : Frame) :
    (renameStep f).rows.map Row.hsaa = f.rows.map Row.hsaa := by
  by_cases h : f.hasPlayerAddress && !f.hasAddress
  · simp [renameStep, h, List.map_map]
  · simp [renameStep, h]

theorem renameStep_exists_hsaa {f : Frame} {r : Row} (hr : r ∈ f.rows) :
    ∃ q ∈ (renameStep f).rows, q.hsaa = r.hsaa := by
  by_cases h : f.hasPlayerAddress && !f.hasAddress
  · refine ⟨{ r with address := r.playerAddress, playerAddress := Cell.cnan }, ?_, rfl⟩
    simp only [renameStep, h, if_true]
    exact List.mem_map_of_mem _ hr
  · exact ⟨r, by simp [renameStep, h, hr], rfl⟩

theorem fmtCell_ok {c c2 : Cell} (h : fmtCell c = Except.ok c2) : c2 = fmtCellSpec c := by
  cases c with
  | cnan =>
    simp only [fmtCell] at h
    cases h
    rfl
  | cstr s =>
    cases hp : strptimeISO s with
    | some t =>
      simp only [fmtCell, hp] at h
      cases h
      simp [fmtCellSpec, hp]
    | none => simp [fmtCell, hp] at h

theorem fmtRow_ok {r r2 : Row} (h : fmtRow r = Except.ok r2) :
    r2.hsaa = fmtCellSpec r.hsaa := by
  unfold fmtRow at h
  cases hc : fmtCell r.hsaa with
  | ok c =>
    rw [hc] at h
    cases h
    exact fmtCell_ok hc
  | error e => rw [hc] at h; cases h

theorem mapCells_ok_hsaa :
    ∀ {l l2 : List Row}, mapCells fmtRow l = Except.ok l2 →
      l2.map Row.hsaa = l.map fun r => fmtCellSpec r.hsaa := by
  intro l
  induction l with
  | nil =>
    intro l2 h
    cases h
    rfl
  | cons r rs ih =>
    intro l2 h
    unfold mapCells at h
    cases hg : fmtRow r with
    | error e => rw [hg] at h; cases h
    | ok r2 =>
      rw [hg] at h
      cases hm : mapCells fmtRow rs with
      | error e => rw [hm] at h; cases h
      | ok rs2 =>
        rw [hm] at h
        cases h
        simp [ih hm, fmtRow_ok hg]

theorem mapCells_error {l : List Row} {r : Row} (hr : r ∈ l)
    (he : fmtRow r = Except.error ()) : mapCells fmtRow l = Except.error () := by
  induction l with
  | nil => cases hr
  | cons a as ih =>
    rcases List.mem_cons.mp hr with h | h
    · subst h
      unfold mapCells
      rw [he]
    · unfold mapCells
      cases hg : fmtRow a with
      | error e => cases e; rfl
      | ok a2 => rw [ih h]

/-! ## Claim C3: idempotence of the normalize step -/

/-- Claim C3, corrected. The claim "normalize(normalize(x)) == normalize(x) for
every entry sequence x" fails (see the counterexample below); what holds is:
normalize is idempotent on inputs without a `highScoreAchievedAt` column, or
without rows — there the address renaming (the only other part of the step) is
a no-op the second time around. -/
theorem C3_main (f : Frame) (h : f.hasHsaa = false ∨ f.rows = []) :
    (normalizeStep f).bind normalizeStep = normalizeStep f := by
  rcases h with h | h
  · have hg : (renameStep f).hasHsaa = false := (renameStep_hasHsaa f).trans h
    have h1 : normalizeStep f = Except.ok (renameStep f) := by
      unfold normalizeStep hsaaStep
      rw [hg]
      simp
    rw [h1]
    show normalizeStep (renameStep f) = Except.ok (renameStep f)
    unfold normalizeStep
    rw [renameStep_renameStep]
    unfold hsaaStep
    rw [hg]
    simp
  · have hg : (renameStep f).rows = [] := renameStep_rows_nil f h
    have hnil : ∀ g : Frame, g.rows = [] → hsaaStep g = Except.ok g := by
      intro g hgr
      rcases g with ⟨a, b, c, d, rows⟩
      replace hgr : rows = [] := hgr
      subst hgr
      cases d
      · rfl
      · rfl
    have hok : hsaaStep (renameStep f) = Except.ok (renameStep f) := hnil _ hg
    have h1 : normalizeStep f = Except.ok (renameStep f) := hok
    rw [h1]
    show normalizeStep (renameStep f) = Except.ok (renameStep f)
    unfold normalizeStep
    rw [renameStep_renameStep]
    exact hok

/-- Claim C3, counterexample: a single entry whose `highScoreAchievedAt` is a
well-formed ISO timestamp. The first normalize turns it into "01:45 PM"; the
second normalize feeds that string back into `strptime`, which raises
`ValueError`, so re-running is not a no-op (it crashes). -/
theorem C3_cex : (normalizeStep fr3c).bind normalizeStep ≠ normalizeStep fr3c := by decide

/-- Claim C3, witness: the amended idempotence at a concrete frame exercising
the address renaming. -/
theorem C3_witness : (normalizeStep fr3w).bind normalizeStep = normalizeStep fr3w :=
  C3_main fr3w (Or.inl rfl)

/-! ## Claim C6: `highScoreAchievedAt` formatting -/

/-- Claim C6, corrected. The claim promises "N/A" whenever the field is absent
or unparsable, never crashing. In fact: when the column is present, a value
that is an unparsable STRING makes normalize raise `ValueError` (first
conjunct); on success every value is mapped as the spec describes — NaN
(absent / non-string) to "N/A" and a parsable ISO string to its 12-hour
`HH:MM AM/PM` rendering (`fmtCellSpec`, second conjunct). -/
theorem C6_main (f : Frame) (hcol : f.hasHsaa = true) :
    ((∃ r ∈ f.rows, ∃ s, r.hsaa = Cell.cstr s ∧ strptimeISO s = none) →
        normalizeStep f = Except.error ()) ∧
    (∀ g, normalizeStep f = Except.ok g →
        g.rows.map Row.hsaa = f.rows.map fun r => fmtCellSpec r.hsaa) := by
  have hcol2 : (renameStep f).hasHsaa = true := (renameStep_hasHsaa f).trans hcol
  constructor
  · rintro ⟨r, hr, s, hs, hp⟩
    obtain ⟨q, hq, hqh⟩ := renameStep_exists_hsaa hr
    have hqe : fmtRow q = Except.error () := by
      have hc : fmtCell q.hsaa = Except.error () := by
        rw [hqh, hs]
        simp [fmtCell, hp]
      simp [fmtRow, hc]
    unfold normalizeStep hsaaStep
    rw [hcol2]
    simp only [if_true]
    rw [mapCells_error hq hqe]
  · intro g hg
    unfold normalizeStep hsaaStep at hg
    rw [hcol2] at hg
    simp only [if_true] at hg
    cases hmc : mapCells fmtRow (renameStep f).rows with
    | error e => rw [hmc] at hg; cases hg
    | ok rs =>
      rw [hmc] at hg
      cases hg
      show rs.map Row.hsaa = _
      rw [mapCells_ok_hsaa hmc]
      have h1 : ((renameStep f).rows.map fun r => fmtCellSpec r.hsaa)
          = ((renameStep f).rows.map Row.hsaa).map fmtCellSpec := by
        rw [List.map_map]
        rfl
      have h2 : (f.rows.map fun r => fmtCellSpec r.hsaa)
          = (f.rows.map Row.hsaa).map fmtCellSpec := by
        rw [List.map_map]
        rfl
      rw [h1, h2, renameStep_hsaa_map]

/-- Claim C6, counterexample: an entry whose `highScoreAchievedAt` is the
unparsable string "not-a-timestamp". The claim says normalize produces "N/A"
(never crashing); the code raises `ValueError` instead. -/
theorem C6_cex : normalizeStep fr6c = Except.error () := by decide

/-- Claim C6, witness: on a frame with one NaN value and one parsable value,
normalize succeeds and maps them to "N/A" and "12:30 AM" respectively. -/
theorem C6_witness : fr6w2.rows.map Row.hsaa = fr6w.rows.map fun r => fmtCellSpec r.hsaa :=
  (C6_main fr6w rfl).2 fr6w2 (by decide)

/-! ## Claim C4: team leaderboard ordering -/

/-- Claim C4, what actually holds (the repo's own header calls the page
"Sorted by Highest Average Score", but `sort_values` runs after the `{:,.0f}`
formatting): the result is sorted descending in the LEXICOGRAPHIC order of the
formatted mean (`teamGe`), covers exactly the tribes having at least one
entry, and lists each such tribe once. -/
theorem C4_main (cached : List TRow) :
    (calculate_team_leaderboard cached).Pairwise teamGe ∧
    (∀ t, (∃ p ∈ calculate_team_leaderboard cached, p.1 = t) ↔ ∃ e ∈ cached, e.tribe = t) ∧
    ((calculate_team_leaderboard cached).map Prod.fst).Nodup := by
  by_cases hc : cached = []
  · subst hc
    refine ⟨by simp [calculate_team_leaderboard], ?_, by simp [calculate_team_leaderboard]⟩
    intro t
    simp [calculate_team_leaderboard]
  · have hrw : calculate_team_leaderboard cached
        = List.insertionSort teamGe
            ((List.insertionSort strLe (cached.map TRow.tribe).dedup).map
              fun t => (t, fmtAvg (tribeSum cached t) (tribeCount cached t))) := by
      simp [calculate_team_leaderboard, hc]
    rw [hrw]
    refine ⟨List.sorted_insertionSort teamGe _, ?_, ?_⟩
    · intro t
      have hperm := List.perm_insertionSort teamGe
        ((List.insertionSort strLe (cached.map TRow.tribe).dedup).map
          fun t => (t, fmtAvg (tribeSum cached t) (tribeCount cached t)))
      constructor
      · rintro ⟨p, hp, hpt⟩
        have hps := hperm.mem_iff.mp hp
        obtain ⟨k, hk, hke⟩ := List.mem_map.mp hps
        have hkt : k = t := by rw [← hke] at hpt; exact hpt
        subst hkt
        have hd : k ∈ (cached.map TRow.tribe).dedup :=
          (List.perm_insertionSort strLe _).mem_iff.mp hk
        obtain ⟨e, he, hek⟩ := List.mem_map.mp (List.mem_dedup.mp hd)
        exact ⟨e, he, hek⟩
      · rintro ⟨e, he, het⟩
        have hd : t ∈ (cached.map TRow.tribe).dedup :=
          List.mem_dedup.mpr (List.mem_map.mpr ⟨e, he, het⟩)
        have hk : t ∈ List.insertionSort strLe (cached.map TRow.tribe).dedup :=
          (List.perm_insertionSort strLe _).mem_iff.mpr hd
        exact ⟨(t, fmtAvg (tribeSum cached t) (tribeCount cached t)),
          hperm.mem_iff.mpr (List.mem_map_of_mem _ hk), rfl⟩
    · have hnk : (List.insertionSort strLe (cached.map TRow.tribe).dedup).Nodup :=
        (List.perm_insertionSort strLe _).nodup_iff.mpr (List.nodup_dedup _)
      have hsf : ((List.insertionSort strLe (cached.map TRow.tribe).dedup).map
            fun t => (t, fmtAvg (tribeSum cached t) (tribeCount cached t))).map Prod.fst
          = List.insertionSort strLe (cached.map TRow.tribe).dedup := by
        have hcomp : (Prod.fst ∘ fun t : String =>
            (t, fmtAvg (tribeSum cached t) (tribeCount cached t))) = id := rfl
        rw [List.map_map, hcomp, List.map_id]
      have hp2 := (List.perm_insertionSort teamGe
        ((List.insertionSort strLe (cached.map TRow.tribe).dedup).map
          fun t => (t, fmtAvg (tribeSum cached t) (tribeCount cached t)))).map Prod.fst
      rw [hsf] at hp2
      exact hp2.nodup_iff.mpr hnk

/-- Claim C4, the code evaluated at the failing input: tribe "a" has mean 900,
tribe "b" has mean 100000, yet "a" is listed first — "900" is
lexicographically greater than "100,000" — so the order is not descending in
the numeric mean (second conjunct: mean of "a" < mean of "b", compared by
cross-multiplication of the exact sums and counts). -/
theorem C4_cex :
    calculate_team_leaderboard ex4 = [("a", "900"), ("b", "100,000")] ∧
    tribeSum ex4 "a" * Int.ofNat (tribeCount ex4 "b")
      < tribeSum ex4 "b" * Int.ofNat (tribeCount ex4 "a") := by
  refine ⟨by decide, by decide⟩

/-! ## Claim C8: vote-off list -/

/-- Claim C8, confirmed: for a frame having the tribe column and an address
column, `calculate_vote_off_list` returns exactly the `(playerId, highScore)`
pairs of the entries of the requested tribe with `highScore` strictly below
`LOW_SCORE_THRESHOLD` (a permutation of the filtered entries, so empty iff no
entry qualifies), in ascending `highScore` order, with `playerId` the
substring of the address after the last colon, "Unknown" when no colon is
present (`player_id`). -/
theorem C8_main (f : Frame) (t : String) (h1 : f.hasTribe = true)
    (h2 : f.hasPlayerAddress = true ∨ f.hasAddress = true) :
    (calculate_vote_off_list f t).Pairwise (fun a b => a.2 ≤ b.2) ∧
    (calculate_vote_off_list f t).Perm
      ((f.rows.filter fun r => r.tribe = t ∧ r.highScore < LOW_SCORE_THRESHOLD).map
        fun r => (player_id (addrOf f r), r.highScore)) := by
  by_cases hr : f.rows = []
  · constructor
    · simp [calculate_vote_off_list, hr]
    · simp [calculate_vote_off_list, hr]
  · have hrw : calculate_vote_off_list f t
        = (List.insertionSort scoreLe
            (f.rows.filter fun r => r.tribe = t ∧ r.highScore < LOW_SCORE_THRESHOLD)).map
            fun r => (player_id (addrOf f r), r.highScore) := by
      rcases h2 with h2 | h2
      · simp [calculate_vote_off_list, hr, h1, h2]
      · simp [calculate_vote_off_list, hr, h1, h2]
    rw [hrw]
    constructor
    · exact List.Pairwise.map _ (fun a b h => h) (List.sorted_insertionSort scoreLe _)
    · exact (List.perm_insertionSort scoreLe _).map _

/-- Claim C8, witness: the spec's own example — red entries with scores 50 and
200000 and addresses "x:1", "x:2" produce exactly `[("1", 50)]`, sorted. -/
theorem C8_witness :
    calculate_vote_off_list fr8 "red" = [("1", 50)] ∧
    (calculate_vote_off_list fr8 "red").Pairwise
      (fun a b : String × Int => a.2 ≤ b.2) :=
  ⟨by decide, (C8_main fr8 "red" rfl (Or.inr rfl)).1⟩

/-! ## Claim C7: pagination -/

theorem take_all_of_len_le : ∀ (l : List α) (n : Nat), l.length ≤ n → l.take n = l := by
  intro l
  induction l with
  | nil => intro n _; simp
  | cons a as ih =>
    intro n hn
    cases n with
    | zero => simp at hn
    | succ m =>
      simp only [List.take_succ_cons, List.cons.injEq, true_and]
      exact ih m (Nat.le_of_succ_le_succ hn)

theorem flatten_pages (ps : Nat) (xs : List α) :
    ∀ n, ((List.range n).map fun i => (xs.drop (i * ps)).take ps).flatten = xs.take (n * ps) := by
  intro n
  induction n with
  | zero => simp
  | succ m ih =>
    rw [List.range_succ, List.map_append, List.flatten_append, ih]
    simp only [List.map_cons, List.map_nil, List.flatten_cons, List.flatten_nil, List.append_nil]
    rw [Nat.succ_mul, List.take_add]

theorem le_total_pages_mul (ps total : Nat) (h : 0 < ps) :
    total ≤ total_pages_with ps total * ps := by
  unfold total_pages_with
  by_cases hm : total % ps > 0
  · rw [if_pos hm, Nat.add_mul, Nat.one_mul]
    calc total = ps * (total / ps) + total % ps := (Nat.div_add_mod total ps).symm
    _ ≤ ps * (total / ps) + ps := Nat.add_le_add_left (le_of_lt (Nat.mod_lt total h)) _
    _ = total / ps * ps + ps := by rw [Nat.mul_comm]
  · rw [if_neg hm, Nat.add_zero]
    have h0 : total % ps = 0 := Nat.eq_zero_of_not_pos hm
    rw [Nat.div_mul_cancel (Nat.dvd_of_mod_eq_zero h0)]

theorem total_pages_eq_ceil (ps total : Nat) (h : 0 < ps) :
    total_pages_with ps total = (total + ps - 1) / ps := by
  obtain ⟨q, r, hr, htot⟩ : ∃ q r, r < ps ∧ total = ps * q + r :=
    ⟨total / ps, total % ps, Nat.mod_lt total h, (Nat.div_add_mod total ps).symm⟩
  subst htot
  unfold total_pages_with
  rw [Nat.mul_add_div h, Nat.div_eq_of_lt hr, Nat.add_zero, Nat.mul_add_mod,
    Nat.mod_eq_of_lt hr]
  by_cases hm : r > 0
  · rw [if_pos hm]
    have key : ps * q + r + ps - 1 = ps * (q + 1) + (r - 1) := by
      rw [Nat.mul_add, Nat.mul_one]
      generalize ps * q = A
      omega
    rw [key, Nat.mul_add_div h, Nat.div_eq_of_lt (show r - 1 < ps by omega), Nat.add_zero]
  · rw [if_neg hm]
    have hr0 : r = 0 := by omega
    subst hr0
    have key : ps * q + 0 + ps - 1 = ps * q + (ps - 1) := by
      generalize ps * q = A
      omega
    rw [key, Nat.mul_add_div h, Nat.div_eq_of_lt (show ps - 1 < ps by omega)]

/-- Claim C7, confirmed (with the code's page size `RESULTS_PER_PAGE := 25` as
the explicit parameter `ps`): `paginateWith` returns the clipped slice together
with the total entry count; `total_pages_with` is `ceil(total / ps)` and is `0`
when the total is `0`; and the concatenation of the slices of pages
`1..total_pages` is exactly the input sequence, each element once. -/
theorem C7_main (ps : Nat) (hps : 0 < ps) (xs : List α) :
    (∀ page, (paginateWith ps xs page).1 = (xs.drop ((page - 1) * ps)).take ps ∧
      (paginateWith ps xs page).2 = xs.length) ∧
    total_pages_with ps xs.length = (xs.length + ps - 1) / ps ∧
    (xs.length = 0 → total_pages_with ps xs.length = 0) ∧
    ((List.range (total_pages_with ps xs.length)).map
        fun i => (paginateWith ps xs (i + 1)).1).flatten = xs := by
  refine ⟨fun page => ⟨rfl, rfl⟩, total_pages_eq_ceil ps xs.length hps, ?_, ?_⟩
  · intro h0
    rw [h0]
    simp [total_pages_with]
  · have hslice : (fun i => (paginateWith ps xs (i + 1)).1)
        = fun i => (xs.drop (i * ps)).take ps := by
      funext i
      simp [paginateWith]
    rw [hslice, flatten_pages]
    exact take_all_of_len_le xs _ (le_total_pages_mul ps xs.length hps)

/-- Claim C7, witness: thirty entries at page size 25 give two pages whose
concatenation is the whole list. -/
theorem C7_witness :
    (0 : Nat) < 25 ∧
    ((List.range (total_pages_with 25 l30.length)).map
        fun i => (paginateWith 25 l30 (i + 1)).1).flatten = l30 :=
  ⟨by decide, (C7_main 25 (by decide) l30).2.2.2⟩

/-! ## Claim C9: source selection -/

theorem selections_aux (evs : List (List String × String)) :
    ∀ cur, evs.foldl (fun c ev => select_cache ev.1 c ev.2) cur = cur ∨
      ∃ ev ∈ evs, evs.foldl (fun c ev => select_cache ev.1 c ev.2) cur = ev.2 ∧
        (ev.2 = "live" ∨ ev.2 ∈ ev.1) := by
  induction evs with
  | nil => intro cur; left; rfl
  | cons e es ih =>
    intro cur
    rw [List.foldl_cons]
    by_cases h : e.2 = "live" ∨ e.2 ∈ e.1
    · have hsel : select_cache e.1 cur e.2 = e.2 := by unfold select_cache; rw [if_pos h]
      rw [hsel]
      rcases ih e.2 with h1 | ⟨ev, hmem, heq, hcond⟩
      · exact Or.inr ⟨e, List.mem_cons_self e es, h1, h⟩
      · exact Or.inr ⟨ev, List.mem_cons_of_mem e hmem, heq, hcond⟩
    · have hsel : select_cache e.1 cur e.2 = cur := by unfold select_cache; rw [if_neg h]
      rw [hsel]
      rcases ih cur with h1 | ⟨ev, hmem, heq, hcond⟩
      · exact Or.inl h1
      · exact Or.inr ⟨ev, List.mem_cons_of_mem e hmem, heq, hcond⟩

/-- Claim C9, confirmed: `select_cache` sets the selection to `id` exactly when
`id` is "live" or a current registry key, and otherwise leaves it unchanged
(silent no-op); consequently, after any run of selection requests the current
selection is "live" or an id that was a registry key at the moment it was
selected. -/
theorem C9_main :
    (∀ (snaps : List String) (cur id : String),
      (id = "live" ∨ id ∈ snaps → select_cache snaps cur id = id) ∧
      (¬ (id = "live" ∨ id ∈ snaps) → select_cache snaps cur id = cur)) ∧
    (∀ evs : List (List String × String),
      runSelections evs = "live" ∨
        ∃ ev ∈ evs, runSelections evs = ev.2 ∧ ev.2 ∈ ev.1) := by
  constructor
  · intro snaps cur id
    constructor
    · intro h
      unfold select_cache
      rw [if_pos h]
    · intro h
      unfold select_cache
      rw [if_neg h]
  · intro evs
    rcases selections_aux evs "live" with h | ⟨ev, hmem, heq, hlive | hin⟩
    · exact Or.inl h
    · exact Or.inl (heq.trans hlive)
    · exact Or.inr ⟨ev, hmem, heq, hin⟩

/-- Claim C9, witness: selecting an id that is not a registry key leaves the
selection unchanged; selecting a registry key adopts it. -/
theorem C9_witness :
    select_cache ["20240101_000000"] "live" "does-not-exist" = "live" ∧
    select_cache ["20240101_000000"] "live" "20240101_000000" = "20240101_000000" :=
  ⟨(C9_main.1 ["20240101_000000"] "live" "does-not-exist").2 (by decide),
   (C9_main.1 ["20240101_000000"] "live" "20240101_000000").1 (Or.inr (by decide))⟩

/-! ## Claim C1: cache behaviour on a failed fetch -/

/-- Claim C1, corrected. The claim says a failed fetch keeps the previously
cached entries. In fact, on the live path with the TTL elapsed: a failed fetch
(non-200 status, or missing nested keys in a 200 response) REPLACES the cached
entries with the empty list — only `last_updated` is kept (first conjunct);
a successful fetch stores the new entries and advances `last_updated` to `now`
(second conjunct). So `lastFetchAt` advances only on success, but staleness is
not preserved. -/
theorem C1_main {β : Type} (st : AppState β) (now : Int) (status : Int) (ext : Option (List β))
    (hlive : st.selected_cache = "live")
    (httl : now - st.last_updated > CACHE_EXPIRATION) :
    ((status ≠ 200 ∨ ext = none) →
      (fetch_leaderboard st now (HttpResp.mk status ext)).2.cached_leaderboard = some [] ∧
      (fetch_leaderboard st now (HttpResp.mk status ext)).2.last_updated = st.last_updated) ∧
    (∀ lb, status = 200 → ext = some lb →
      (fetch_leaderboard st now (HttpResp.mk status ext)).2.cached_leaderboard = some lb ∧
      (fetch_leaderboard st now (HttpResp.mk status ext)).2.last_updated = now) := by
  have hcond : ¬ (st.selected_cache ≠ "live" ∧ st.selected_cache ∈ dictKeys st.cache_snapshots) :=
    fun hc => hc.1 hlive
  constructor
  · rintro (hs | he)
    · constructor <;> simp [fetch_leaderboard, hcond, httl, hs]
    · subst he
      by_cases hs : status = 200
      · subst hs
        constructor <;> simp [fetch_leaderboard, hcond, httl]
      · constructor <;> simp [fetch_leaderboard, hcond, httl, hs]
  · intro lb hs he
    subst hs
    subst he
    constructor <;> simp [fetch_leaderboard, hcond, httl]

/-- Claim C1, counterexample: a cache holding entries `[7]`, TTL elapsed, and a
500 response. The cached entries change (to `some []`), refuting
"keeps the previously cached entries unchanged"; `last_updated` indeed stays. -/
theorem C1_cex :
    (fetch_leaderboard st1 501 respFail).2.cached_leaderboard ≠ st1.cached_leaderboard ∧
    (fetch_leaderboard st1 501 respFail).2.last_updated = st1.last_updated := by
  refine ⟨by decide, by decide⟩

/-- Claim C1, witness: the amended failure behaviour at the concrete state. -/
theorem C1_witness :
    (fetch_leaderboard st1 501 (HttpResp.mk 500 none)).2.cached_leaderboard = some [] ∧
    (fetch_leaderboard st1 501 (HttpResp.mk 500 none)).2.last_updated = st1.last_updated :=
  (C1_main st1 501 500 none rfl (by decide)).1 (Or.inl (by decide))

/-! ## Claim C10: resolving a stale snapshot selection -/

/-- Claim C10, confirmed: when `selected_cache` names a snapshot id that is not
a key of the registry, `fetch_leaderboard` behaves exactly as if "live" were
selected — same returned entries and same state update (only the unchanged
`selected_cache` field differs from the live-selected run). -/
theorem C10_main {β : Type} (st : AppState β) (now : Int) (resp : HttpResp β)
    (h1 : st.selected_cache ≠ "live")
    (h2 : st.selected_cache ∉ dictKeys st.cache_snapshots) :
    (fetch_leaderboard st now resp).1
        = (fetch_leaderboard { st with selected_cache := "live" } now resp).1 ∧
    (fetch_leaderboard st now resp).2
        = { (fetch_leaderboard { st with selected_cache := "live" } now resp).2 with
            selected_cache := st.selected_cache } := by
  rcases st with ⟨cached, lu, sel, snaps⟩
  rcases resp with ⟨status, ext⟩
  have hcond : ¬ (sel ≠ "live" ∧ sel ∈ dictKeys snaps) := fun hc => h2 hc.2
  by_cases httl : now - lu > CACHE_EXPIRATION
  · by_cases hs : status = 200
    · cases ext with
      | some lb => constructor <;> simp [fetch_leaderboard, hcond, httl, hs]
      | none => constructor <;> simp [fetch_leaderboard, hcond, httl, hs]
    · constructor <;> simp [fetch_leaderboard, hcond, httl, hs]
  · constructor <;> simp [fetch_leaderboard, hcond, httl]

/-- Claim C10, witness: with selection "gone" absent from a registry holding
"k", the fetch returns the live result and refreshes the live cache. -/
theorem C10_witness :
    (fetch_leaderboard st10 501 (HttpResp.mk 200 (some [9]))).1
        = (fetch_leaderboard { st10 with selected_cache := "live" } 501
            (HttpResp.mk 200 (some [9]))).1 ∧
    (fetch_leaderboard st10 501 (HttpResp.mk 200 (some [9]))).2
        = { (fetch_leaderboard { st10 with selected_cache := "live" } 501
              (HttpResp.mk 200 (some [9]))).2 with selected_cache := st10.selected_cache } :=
  C10_main st10 501 (HttpResp.mk 200 (some [9])) (by decide) (by decide)

/-! ## Claim C2: snapshot registry growth -/

theorem dictInsert_fresh {m : List (String × γ)} {k : String} (hk : k ∉ dictKeys m) (v : γ) :
    dictInsert m k v = m ++ [(k, v)] := by
  unfold dictInsert
  rw [if_neg hk]

/-- Claim C2, corrected. The claim says the registry is capped at 20 with
oldest-first eviction on insert. In fact `save_backup` never evicts: folding
any run of successful backups with pairwise-distinct fresh ids appends every
id, so the registry keys grow without bound, keeping the oldest. (The number
20 appears only in `load_existing_backups` at startup.) -/
theorem C2_main {β : Type} (reg : List (String × SnapData β)) (files : List String)
    (pairs : List (String × List β))
    (hnd : (pairs.map Prod.fst).Nodup)
    (hfresh : ∀ p ∈ pairs, p.1 ∉ dictKeys reg) :
    dictKeys (runBackups reg files (pairs.map fun p => (p.1, HttpResp.mk 200 (some p.2)))).1
      = dictKeys reg ++ pairs.map Prod.fst := by
  induction pairs generalizing reg files with
  | nil => simp [runBackups]
  | cons p ps ih =>
    rw [List.map_cons] at hnd ⊢
    have hstep : runBackups reg files
        ((p.1, HttpResp.mk 200 (some p.2)) :: ps.map fun q => (q.1, HttpResp.mk 200 (some q.2)))
        = runBackups (dictInsert reg p.1 ⟨p.2, p.1⟩)
            (if p.1 ∈ files then files else files ++ [p.1])
            (ps.map fun q => (q.1, HttpResp.mk 200 (some q.2))) := by
      simp [runBackups, save_backup]
    rw [hstep]
    have hkeys : dictKeys (dictInsert reg p.1 ⟨p.2, p.1⟩) = dictKeys reg ++ [p.1] := by
      rw [dictInsert_fresh (hfresh p (List.mem_cons_self p ps)) _]
      simp [dictKeys]
    have hp1 : p.1 ∉ ps.map Prod.fst := (List.nodup_cons.mp hnd).1
    have hnd2 : (ps.map Prod.fst).Nodup := (List.nodup_cons.mp hnd).2
    have hfresh2 : ∀ q ∈ ps, q.1 ∉ dictKeys (dictInsert reg p.1 ⟨p.2, p.1⟩) := by
      intro q hq
      rw [hkeys]
      intro hmem
      rcases List.mem_append.mp hmem with hmem | hmem
      · exact hfresh q (List.mem_cons_of_mem p hq) hmem
      · have hqp : q.1 = p.1 := by simpa using hmem
        exact hp1 (by rw [← hqp]; exact List.mem_map_of_mem Prod.fst hq)
    rw [ih _ _ hnd2 hfresh2, hkeys]
    simp

/-- Claim C2, counterexample: 25 successful backups with fresh ids leave a
registry of size 25 that still contains the oldest id — the claimed retention
bound of 20 with oldest-first eviction is violated. -/
theorem C2_cex :
    (runBackups ([] : List (String × SnapData Nat)) [] evs25).1.length = 25 ∧
    "s01" ∈ dictKeys (runBackups ([] : List (String × SnapData Nat)) [] evs25).1 := by
  refine ⟨by decide, by decide⟩

/-- Claim C2, witness: the amended growth law at the 25 concrete insertions. -/
theorem C2_witness :
    dictKeys (runBackups ([] : List (String × SnapData Nat)) []
        (pairs25.map fun p => (p.1, HttpResp.mk 200 (some p.2)))).1 = ids25 :=
  (C2_main ([] : List (String × SnapData Nat)) [] pairs25 (by decide) (by decide)).trans
    (by decide)

/-! ## Claim C5: deleting a backup -/

/-- Claim C5, corrected. The claim says `NotFound` is reported iff NEITHER the
registry entry NOR the file exists. In fact the reported outcome depends only
on the file: "file not found" is reported exactly when the file is absent,
even if a registry entry existed and was removed (first conjunct). The
registry entry for the id is gone afterwards and all other entries survive
(remaining conjuncts); nothing is raised (exceptions are caught into a
redirect). -/
theorem C5_main {β : Type} (reg : List (String × SnapData β)) (files : List String) (ts : String) :
    ((delete_backup reg files ts).2.2 = DeleteResult.fileMissing ↔ ts ∉ files) ∧
    ts ∉ dictKeys (delete_backup reg files ts).1 ∧
    (∀ k, k ≠ ts → (k ∈ dictKeys (delete_backup reg files ts).1 ↔ k ∈ dictKeys reg)) := by
  have hpair : delete_backup reg files ts
      = (if ts ∈ dictKeys reg then reg.filter (fun p => ¬ p.1 = ts) else reg,
         if ts ∈ files then files.erase ts else files,
         if ts ∈ files then DeleteResult.deleted else DeleteResult.fileMissing) := by
    unfold delete_backup
    by_cases hf : ts ∈ files
    · simp [hf]
    · simp [hf]
  rw [hpair]
  refine ⟨?_, ?_, ?_⟩
  · by_cases hf : ts ∈ files
    · simp [hf]
    · simp [hf]
  · by_cases hk : ts ∈ dictKeys reg
    · simp only [hk, if_true]
      simp [dictKeys, List.mem_map, List.mem_filter]
    · simp [hk]
  · intro k hkts
    by_cases hk : ts ∈ dictKeys reg
    · simp only [hk, if_true]
      simp only [dictKeys, List.mem_map, List.mem_filter]
      constructor
      · rintro ⟨p, ⟨hp, _⟩, hpk⟩
        exact ⟨p, hp, hpk⟩
      · rintro ⟨p, hp, hpk⟩
        refine ⟨p, ⟨hp, ?_⟩, hpk⟩
        simp only [decide_eq_true_eq]
        rw [hpk]
        exact hkts
    · simp [hk]

/-- Claim C5, witness: the amended delete behaviour at a concrete state where
both the registry entry and the file exist. -/
theorem C5_witness :
    ((delete_backup reg5 ["a"] "a").2.2 = DeleteResult.fileMissing ↔ "a" ∉ ["a"]) ∧
    "a" ∉ dictKeys (delete_backup reg5 ["a"] "a").1 ∧
    ("b" ∈ dictKeys (delete_backup reg5 ["a"] "a").1 ↔ "b" ∈ dictKeys reg5) :=
  ⟨(C5_main reg5 ["a"] "a").1, (C5_main reg5 ["a"] "a").2.1,
   (C5_main reg5 ["a"] "a").2.2 "b" (by decide)⟩

/-- Claim C5, counterexample: registry contains "a" but its file is already
gone. The claim demands success (registry entry exists), yet the code reports
the file-missing outcome — the claimed iff is false. -/
theorem C5_cex :
    ¬ (((delete_backup reg5 ([] : List String) "a").2.2 = DeleteResult.fileMissing) ↔
        ("a" ∉ dictKeys reg5 ∧ "a" ∉ ([] : List String))) := by
  decide

end CTG
